import Mathlib

/-
Verification of the type-resolution layer described by the mlx_ffi design
document, against the repository's `src/tool/ffigen_include/mlx/c/half.h`.

Part 1 embeds the preprocessor-visible structure of `half.h` itself: the
file is a sequence of conditional-compilation directives and emitted items
(the two typedef lines, the stdint include, the C-linkage markers), and a
small evaluator gives the standard semantics of #ifndef / #ifdef /
#define / #endif over a set of already-defined names.

Part 2 models the Type Resolution Table (TRT) component.  The TRT's code
is not part of the repository sources (only the header it is keyed on is),
so the operations are modelled from the specification, with their seeded
default descriptors derived from the header embedding of Part 1.
-/

namespace MlxFfi

/-- Items the body of `half.h` can emit when the preprocessor runs over it:
the two C-linkage markers, the stdint inclusion, and the two typedef lines
`typedef uint16_t float16_t;` and `typedef uint16_t bfloat16_t;`. -/
inductive HeaderOutput where
  | cLinkageOpen
  | cLinkageClose
  | includeStdint
  | typedefFloat16
  | typedefBfloat16
  deriving DecidableEq

/-- One preprocessor-level item of a header file: a conditional directive,
a definition of a preprocessor name, the end of a conditional, or an
emitted (non-directive) item. -/
inductive PPItem where
  | ifAbsent (m : String)
  | ifPresent (m : String)
  | define (m : String)
  | endif
  | emit (o : HeaderOutput)

/-- Preprocessor state: the set of currently defined names (as a list) and
the stack of enclosing conditionals, each entry recording whether its
region is active (the entry already conjoins all enclosing conditions). -/
structure PPState where
  defined : List String
  stack : List Bool
  deriving DecidableEq

/-- Membership test on the defined-name list. -/
def isDefined : List String → String → Bool
  | [], _ => false
  | m :: rest, n => if m = n then true else isDefined rest n

/-- Whether the current position of the preprocessor is in an active
region: the innermost conditional entry, or true at top level. -/
def PPState.active (s : PPState) : Bool := s.stack.headD true

/-- One step of the preprocessor: directives manipulate the state, and an
emitted item is produced exactly when the current region is active. -/
def ppStep (s : PPState) : PPItem → PPState × Option HeaderOutput
  | .ifAbsent m =>
    ({ s with stack := (s.active && !(isDefined s.defined m)) :: s.stack }, none)
  | .ifPresent m =>
    ({ s with stack := (s.active && isDefined s.defined m) :: s.stack }, none)
  | .define m =>
    (if s.active then { s with defined := m :: s.defined } else s, none)
  | .endif => ({ s with stack := s.stack.tail }, none)
  | .emit o => (s, if s.active then some o else none)

/-- Run the preprocessor over a list of items, collecting emitted output. -/
def ppRun (s : PPState) : List PPItem → PPState × List HeaderOutput
  | [] => (s, [])
  | i :: rest =>
    let step := ppStep s i
    let cont := ppRun step.1 rest
    (cont.1, match step.2 with
             | none => cont.2
             | some o => o :: cont.2)

/-- The directive/emission structure of `src/tool/ffigen_include/mlx/c/half.h`,
item by item in source order: the `MLX_HALF_H` include guard; the C-linkage
block; the stdint include; the `HAS_FLOAT16` guard enclosing only
`#define HAS_FLOAT16`; the `float16_t` typedef; the `HAS_BFLOAT16` guard
enclosing only `#define HAS_BFLOAT16`; the `bfloat16_t` typedef; the closing
C-linkage block; the closing `#endif` of the include guard. -/
def halfHeader : List PPItem :=
  [ .ifAbsent "MLX_HALF_H",
    .define "MLX_HALF_H",
    .ifPresent "__cplusplus",
    .emit .cLinkageOpen,
    .endif,
    .emit .includeStdint,
    .ifAbsent "HAS_FLOAT16",
    .define "HAS_FLOAT16",
    .endif,
    .emit .typedefFloat16,
    .ifAbsent "HAS_BFLOAT16",
    .define "HAS_BFLOAT16",
    .endif,
    .emit .typedefBfloat16,
    .ifPresent "__cplusplus",
    .emit .cLinkageClose,
    .endif,
    .endif ]

/-- Output of processing `half.h` starting from an environment in which the
names in `defs` are already defined. -/
def processHalfHeader (defs : List String) : List HeaderOutput :=
  (ppRun { defined := defs, stack := [] } halfHeader).2

/-- Modelled from the spec: the layout classes a TypeDescriptor can carry;
for the two scalar aliases of this core the only class is opaque-storage
(a bit pattern with no arithmetic semantics at this layer). -/
inductive LayoutClass where
  | opaqueStorage
  deriving DecidableEq

/-- Modelled from the spec: the semantic hint distinguishing IEEE half
precision from truncated/brain half precision. -/
inductive SemanticHint where
  | ieeeHalf
  | truncatedBrain
  deriving DecidableEq

/-- Modelled from the spec: a resolved scalar type descriptor with its
physical storage width in bits, layout class, and optional semantic hint.
The name is kept outside the descriptor, as the key of the table. -/
structure TypeDescriptor where
  storageWidthBits : Nat
  layoutClass : LayoutClass
  semanticHint : Option SemanticHint
  deriving DecidableEq

/-- Modelled from the spec: the error kinds of the TRT component. -/
inductive TRTError where
  | ConflictingDefinition (existing incoming : TypeDescriptor)
  | NotInitialized
  deriving DecidableEq

/-- Modelled from the spec: TRT state machine with exactly two states,
Uninitialized (before seedDefaults) and Active (after), the latter carrying
the name-to-descriptor table in registration order. -/
inductive TRTState where
  | Uninitialized
  | Active (table : List (String × TypeDescriptor))
  deriving DecidableEq

/-- First-match lookup of a name in the table. -/
def lookupName : List (String × TypeDescriptor) → String → Option TypeDescriptor
  | [], _ => none
  | (m, d) :: rest, n => if m = n then some d else lookupName rest n

/-- Modelled from the spec: `register(name, descriptor)`.  Fails with
NotInitialized before seeding.  In Active state: insert when the name is
unregistered; succeed without modifying state when it is registered with an
identical descriptor; fail with ConflictingDefinition naming the existing
and the incoming descriptor when it is registered with a different one. -/
def register : TRTState → String → TypeDescriptor → Except TRTError TRTState
  | .Uninitialized, _, _ => .error .NotInitialized
  | .Active tbl, n, d =>
    match lookupName tbl n with
    | none => .ok (.Active (tbl ++ [(n, d)]))
    | some e => if e = d then .ok (.Active tbl) else .error (.ConflictingDefinition e d)

/-- Modelled from the spec: `resolve(name)`, a pure lookup that fails with
NotInitialized before seeding and otherwise returns the optional descriptor
registered under the name; absence is a normal outcome. -/
def resolve : TRTState → String → Except TRTError (Option TypeDescriptor)
  | .Uninitialized, _ => .error .NotInitialized
  | .Active tbl, n => .ok (lookupName tbl n)

/-- The descriptor of `float16_t`: 16-bit opaque storage, IEEE-half hint. -/
def float16Descriptor : TypeDescriptor :=
  { storageWidthBits := 16, layoutClass := .opaqueStorage, semanticHint := some .ieeeHalf }

/-- The descriptor of `bfloat16_t`: 16-bit opaque storage, brain hint. -/
def bfloat16Descriptor : TypeDescriptor :=
  { storageWidthBits := 16, layoutClass := .opaqueStorage, semanticHint := some .truncatedBrain }

/-- A host platform, characterised by whether its native toolchain already
defines the two half-float feature names before `half.h` is processed. -/
structure HostPlatform where
  nativeFloat16 : Bool
  nativeBfloat16 : Bool
  deriving DecidableEq

/-- The preprocessor names a host platform predefines ahead of `half.h`. -/
def platformDefines (p : HostPlatform) : List String :=
  (if p.nativeFloat16 then ["HAS_FLOAT16"] else []) ++
  (if p.nativeBfloat16 then ["HAS_BFLOAT16"] else [])

/-- The table entry contributed by one emitted header item: each typedef
line contributes its alias with the corresponding descriptor. -/
def outputEntry : HeaderOutput → Option (String × TypeDescriptor)
  | .typedefFloat16 => some ("float16_t", float16Descriptor)
  | .typedefBfloat16 => some ("bfloat16_t", bfloat16Descriptor)
  | _ => none

/-- The table seeded on a given host platform: the entries contributed by
processing `half.h` with that platform's predefined names. -/
def seededTable (p : HostPlatform) : List (String × TypeDescriptor) :=
  (processHalfHeader (platformDefines p)).filterMap outputEntry

/-- Modelled from the spec: `seedDefaults()`, called once at session start,
takes the table from Uninitialized to Active with the two built-in aliases
registered; on an already Active table it changes nothing. -/
def seedDefaults (p : HostPlatform) : TRTState → TRTState
  | .Uninitialized => .Active (seededTable p)
  | .Active tbl => .Active tbl

/-- One call of the TRT interface. -/
inductive TRTOp where
  | seed
  | reg (n : String) (d : TypeDescriptor)
  | res (n : String)

/-- Observable result of one call, including failures. -/
inductive CallResult where
  | seeded
  | registered
  | resolved (d : Option TypeDescriptor)
  | failed (e : TRTError)
  deriving DecidableEq

/-- Modelled from the spec: run one call against the current state.  A
failed call reports its error and leaves the table state unchanged. -/
def runOp (p : HostPlatform) (t : TRTState) : TRTOp → CallResult × TRTState
  | .seed => (.seeded, seedDefaults p t)
  | .reg n d =>
    match register t n d with
    | .ok t1 => (.registered, t1)
    | .error e => (.failed e, t)
  | .res n =>
    match resolve t n with
    | .ok r => (.resolved r, t)
    | .error e => (.failed e, t)

/-- Run a sequence of calls, collecting every call's result and the final
state. -/
def runSeq (p : HostPlatform) (t : TRTState) : List TRTOp → List CallResult × TRTState
  | [] => ([], t)
  | op :: ops =>
    let step := runOp p t op
    let rest := runSeq p step.2 ops
    (step.1 :: rest.1, rest.2)

/-- Run a sequence of calls from a fresh (Uninitialized) TRT. -/
def runFresh (p : HostPlatform) (ops : List TRTOp) : List CallResult × TRTState :=
  runSeq p .Uninitialized ops

/-- The state after a register call, whether or not it succeeded. -/
def regState (t : TRTState) (n : String) (d : TypeDescriptor) : TRTState :=
  match register t n d with
  | .ok t1 => t1
  | .error _ => t

/-- The table after a register call on an Active table: appended when the
name was unregistered, unchanged otherwise. -/
def regTable (tbl : List (String × TypeDescriptor)) (n : String)
    (d : TypeDescriptor) : List (String × TypeDescriptor) :=
  match lookupName tbl n with
  | none => tbl ++ [(n, d)]
  | some _ => tbl

/-- A platform with no native half-float support, used for witnesses. -/
def noNativeHalf : HostPlatform := { nativeFloat16 := false, nativeBfloat16 := false }

instance {ε α : Type} [DecidableEq ε] [DecidableEq α] :
    DecidableEq (Except ε α) := fun x y =>
  match x, y with
  | .ok a, .ok b =>
    if h : a = b then .isTrue (congrArg Except.ok h)
    else .isFalse fun hh => h (Except.ok.inj hh)
  | .error e, .error f =>
    if h : e = f then .isTrue (congrArg Except.error h)
    else .isFalse fun hh => h (Except.error.inj hh)
  | .ok _, .error _ => .isFalse fun hh => Except.noConfusion hh
  | .error _, .ok _ => .isFalse fun hh => Except.noConfusion hh

example : processHalfHeader [] =
    [.includeStdint, .typedefFloat16, .typedefBfloat16] := by decide

example : processHalfHeader ["HAS_FLOAT16", "__cplusplus"] =
    [.cLinkageOpen, .includeStdint, .typedefFloat16, .typedefBfloat16,
     .cLinkageClose] := by decide

example : seededTable noNativeHalf =
    [("float16_t", float16Descriptor), ("bfloat16_t", bfloat16Descriptor)] := by decide

theorem lookupName_append_some {l1 : List (String × TypeDescriptor)} {n : String}
    {d : TypeDescriptor} (h : lookupName l1 n = some d)
    (l2 : List (String × TypeDescriptor)) :
    lookupName (l1 ++ l2) n = some d := by
  induction l1 with
  | nil => simp [lookupName] at h
  | cons hd tl ih =>
    obtain ⟨m, e⟩ := hd
    by_cases hm : m = n
    · simp [lookupName, hm] at h ⊢
      exact h
    · simp [lookupName, hm] at h ⊢
      exact ih h

theorem lookupName_append_none {l1 : List (String × TypeDescriptor)} {n : String}
    (h : lookupName l1 n = none) (l2 : List (String × TypeDescriptor)) :
    lookupName (l1 ++ l2) n = lookupName l2 n := by
  induction l1 with
  | nil => simp [lookupName]
  | cons hd tl ih =>
    obtain ⟨m, e⟩ := hd
    by_cases hm : m = n
    · simp [lookupName, hm] at h
    · simp [lookupName, hm] at h ⊢
      exact ih h

theorem regState_active (tbl : List (String × TypeDescriptor)) (n : String)
    (d : TypeDescriptor) :
    regState (.Active tbl) n d = .Active (regTable tbl n d) := by
  cases h : lookupName tbl n with
  | none => simp [regState, regTable, register, h]
  | some e => by_cases he : e = d <;> simp [regState, regTable, register, h, he]

theorem lookupName_regTable_self (tbl : List (String × TypeDescriptor))
    (n : String) (d : TypeDescriptor) :
    lookupName (regTable tbl n d) n = some ((lookupName tbl n).getD d) := by
  cases h : lookupName tbl n with
  | none => simp [regTable, h, lookupName_append_none h, lookupName]
  | some e => simp [regTable, h]

theorem lookupName_regTable_ne {a b : String} (h : b ≠ a)
    (tbl : List (String × TypeDescriptor)) (d : TypeDescriptor) :
    lookupName (regTable tbl b d) a = lookupName tbl a := by
  cases hb : lookupName tbl b with
  | some e => simp [regTable, hb]
  | none =>
    cases ha : lookupName tbl a with
    | some e => simp [regTable, hb, lookupName_append_some ha]
    | none => simp [regTable, hb, lookupName_append_none ha, lookupName, h]

theorem runOp_reg_snd (p : HostPlatform) (t : TRTState) (n : String)
    (d : TypeDescriptor) :
    (runOp p t (.reg n d)).2 = regState t n d := by
  cases h : register t n d <;> simp [runOp, regState, h]

theorem runOp_preserves_binding (p : HostPlatform)
    {tbl : List (String × TypeDescriptor)} {n : String} {d : TypeDescriptor}
    (h : lookupName tbl n = some d) (op : TRTOp) :
    ∃ tbl1, (runOp p (.Active tbl) op).2 = .Active tbl1 ∧
      lookupName tbl1 n = some d := by
  cases op with
  | seed => exact ⟨tbl, by simp [runOp, seedDefaults], h⟩
  | res m => exact ⟨tbl, by simp [runOp, resolve], h⟩
  | reg m e =>
    refine ⟨regTable tbl m e, by rw [runOp_reg_snd, regState_active], ?_⟩
    by_cases hmn : m = n
    · subst hmn
      simp [regTable, h]
    · rw [lookupName_regTable_ne hmn]
      exact h

theorem seededTable_eq (p : HostPlatform) :
    seededTable p = [("float16_t", float16Descriptor), ("bfloat16_t", bfloat16Descriptor)] := by
  obtain ⟨f, b⟩ := p
  cases f <;> cases b <;> decide

theorem runOp_platform (p q : HostPlatform) (t : TRTState) (op : TRTOp) :
    runOp p t op = runOp q t op := by
  cases op with
  | seed => cases t <;> simp [runOp, seedDefaults, seededTable_eq]
  | reg n d => rfl
  | res n => rfl

theorem runSeq_platform (p q : HostPlatform) (ops : List TRTOp) (t : TRTState) :
    runSeq p t ops = runSeq q t ops := by
  induction ops generalizing t with
  | nil => rfl
  | cons op ops ih => simp [runSeq, runOp_platform p q t op, ih]

/-- Claim C1: immediately after seedDefaults on a fresh TRT — on any host
platform — resolve of float16_t returns the 16-bit opaque-storage
descriptor with the IEEE-half hint, and resolve of bfloat16_t returns the
16-bit opaque-storage descriptor with the truncated/brain hint. -/
theorem seedDefaults_resolve_builtins (p : HostPlatform) :
    resolve (seedDefaults p .Uninitialized) "float16_t" = .ok (some float16Descriptor) ∧
    resolve (seedDefaults p .Uninitialized) "bfloat16_t" = .ok (some bfloat16Descriptor) ∧
    float16Descriptor.storageWidthBits = 16 ∧
    float16Descriptor.layoutClass = .opaqueStorage ∧
    float16Descriptor.semanticHint = some .ieeeHalf ∧
    bfloat16Descriptor.storageWidthBits = 16 ∧
    bfloat16Descriptor.layoutClass = .opaqueStorage ∧
    bfloat16Descriptor.semanticHint = some .truncatedBrain := by
  obtain ⟨f, b⟩ := p
  cases f <;> cases b <;> decide

/-- Claim C2: in an Active TRT, after a successful register of (n, d1), a
register of (n, d2) with d2 different from d1 fails with
ConflictingDefinition naming d1 and d2, the failed call leaves the table
state unchanged, and a subsequent resolve of n still returns d1. -/
theorem register_conflict_preserves_first (p : HostPlatform)
    (tbl : List (String × TypeDescriptor)) (n : String)
    (d1 d2 : TypeDescriptor) (t1 : TRTState) (hne : d1 ≠ d2)
    (h : register (.Active tbl) n d1 = .ok t1) :
    register t1 n d2 = .error (.ConflictingDefinition d1 d2) ∧
    runOp p t1 (.reg n d2) = (.failed (.ConflictingDefinition d1 d2), t1) ∧
    resolve t1 n = .ok (some d1) := by
  have hlook : ∃ tbl1, t1 = .Active tbl1 ∧ lookupName tbl1 n = some d1 := by
    cases hl : lookupName tbl n with
    | none =>
      simp [register, hl] at h
      exact ⟨tbl ++ [(n, d1)], h.symm, by
        rw [lookupName_append_none hl]
        simp [lookupName]⟩
    | some e =>
      by_cases he : e = d1
      · subst he
        simp [register, hl] at h
        exact ⟨tbl, h.symm, hl⟩
      · simp [register, hl, he] at h
  obtain ⟨tbl1, ht, hl1⟩ := hlook
  subst ht
  refine ⟨?_, ?_, ?_⟩
  · simp [register, hl1, hne]
  · simp [runOp, register, hl1, hne]
  · simp [resolve, hl1]

/-- Claim C2 witness: a concrete instance — register "x" with the float16
descriptor into an empty Active table, then register "x" with the bfloat16
descriptor: the second call fails with ConflictingDefinition, the state is
unchanged, and resolve still returns the first descriptor. -/
theorem register_conflict_preserves_first_witness :
    register (.Active [("x", float16Descriptor)]) "x" bfloat16Descriptor =
      .error (.ConflictingDefinition float16Descriptor bfloat16Descriptor) ∧
    runOp noNativeHalf (.Active [("x", float16Descriptor)]) (.reg "x" bfloat16Descriptor) =
      (.failed (.ConflictingDefinition float16Descriptor bfloat16Descriptor),
       .Active [("x", float16Descriptor)]) ∧
    resolve (.Active [("x", float16Descriptor)]) "x" = .ok (some float16Descriptor) :=
  register_conflict_preserves_first noNativeHalf [] "x" float16Descriptor
    bfloat16Descriptor (.Active [("x", float16Descriptor)]) (by decide) (by decide)

/-- Claim C6: register and resolve on an Uninitialized TRT fail with
NotInitialized, for every name, descriptor and platform; after seedDefaults
the TRT is Active, and in any Active state neither call fails with
NotInitialized. -/
theorem uninitialized_guard (p : HostPlatform) (n : String) (d : TypeDescriptor)
    (tbl : List (String × TypeDescriptor)) :
    register .Uninitialized n d = .error .NotInitialized ∧
    resolve .Uninitialized n = .error .NotInitialized ∧
    seedDefaults p .Uninitialized = .Active (seededTable p) ∧
    register (.Active tbl) n d ≠ .error .NotInitialized ∧
    resolve (.Active tbl) n ≠ .error .NotInitialized := by
  refine ⟨rfl, rfl, rfl, ?_, by simp [resolve]⟩
  cases hl : lookupName tbl n with
  | none => simp [register, hl]
  | some e => by_cases he : e = d <;> simp [register, hl, he]

/-- Claim C7: in an Active TRT, resolve is a pure total lookup: it returns
ok of the table lookup (some of the registered descriptor, none when the
name is unregistered), never an error, and the call leaves the state
exactly unchanged. -/
theorem resolve_pure_total (p : HostPlatform)
    (tbl : List (String × TypeDescriptor)) (n : String) :
    resolve (.Active tbl) n = .ok (lookupName tbl n) ∧
    runOp p (.Active tbl) (.res n) = (.resolved (lookupName tbl n), .Active tbl) := by
  exact ⟨rfl, by simp [runOp, resolve]⟩

theorem regTable_of_some {tbl : List (String × TypeDescriptor)} {n : String}
    (h : ∃ e, lookupName tbl n = some e) (d : TypeDescriptor) :
    regTable tbl n d = tbl := by
  obtain ⟨e, he⟩ := h
  simp [regTable, he]

theorem regTable_idem (tbl : List (String × TypeDescriptor)) (n : String)
    (d : TypeDescriptor) :
    regTable (regTable tbl n d) n d = regTable tbl n d :=
  regTable_of_some ⟨_, lookupName_regTable_self tbl n d⟩ d

/-- Claim C3 counterexample: with "float16_t" already registered with its
default descriptor, a later registration of the same name with the bfloat16
descriptor is not a no-op success: it fails with ConflictingDefinition. -/
theorem register_redefinition_can_fail :
    register (.Active [("float16_t", float16Descriptor)]) "float16_t" bfloat16Descriptor =
      .error (.ConflictingDefinition float16Descriptor bfloat16Descriptor) := by decide

/-- Claim C3 (amended): for a name already registered, the first definition
wins: re-registering it with the identical descriptor is a no-op success,
re-registering it with a different descriptor fails with
ConflictingDefinition rather than overwriting, and in either case resolve
afterwards still returns the first descriptor. -/
theorem register_first_wins (tbl : List (String × TypeDescriptor)) (n : String)
    (d0 d : TypeDescriptor) (h : lookupName tbl n = some d0) :
    (d = d0 → register (.Active tbl) n d = .ok (.Active tbl)) ∧
    (d ≠ d0 → register (.Active tbl) n d = .error (.ConflictingDefinition d0 d)) ∧
    resolve (regState (.Active tbl) n d) n = .ok (some d0) := by
  refine ⟨?_, ?_, ?_⟩
  · intro hd
    subst hd
    simp [register, h]
  · intro hd
    simp [register, h, Ne.symm hd]
  · rw [regState_active]
    simp [resolve, lookupName_regTable_self, h]

/-- Claim C3 witness: the amended theorem at a concrete registered table —
re-registering "x" with a different descriptor is rejected. -/
theorem register_first_wins_witness :
    register (.Active [("x", float16Descriptor)]) "x" bfloat16Descriptor =
      .error (.ConflictingDefinition float16Descriptor bfloat16Descriptor) :=
  (register_first_wins [("x", float16Descriptor)] "x" float16Descriptor
    bfloat16Descriptor (by decide)).2.1 (by decide)

/-- Claim C4 counterexample: with "x" already bound to the float16
descriptor, the sequence register("x", bfloat16); register("x", bfloat16)
has its second call fail with ConflictingDefinition rather than return
success, although "x" is non-empty and the descriptor width is positive. -/
theorem register_twice_second_not_success :
    (runSeq noNativeHalf (.Active [("x", float16Descriptor)])
      [.reg "x" bfloat16Descriptor, .reg "x" bfloat16Descriptor]).1 =
    [.failed (.ConflictingDefinition float16Descriptor bfloat16Descriptor),
     .failed (.ConflictingDefinition float16Descriptor bfloat16Descriptor)] := by decide

/-- Claim C4 (amended): registration is idempotent on the state: for every
valid name and descriptor, a second register of the same pair leaves the
table in the same state as a single register, with identical resolve
results for every name; and whenever the first call succeeded, the second
call returns success with the state unchanged. -/
theorem register_idempotent (tbl : List (String × TypeDescriptor)) (n : String)
    (d : TypeDescriptor) (hn : n ≠ "") (hw : 0 < d.storageWidthBits) :
    regState (regState (.Active tbl) n d) n d = regState (.Active tbl) n d ∧
    (∀ m, resolve (regState (regState (.Active tbl) n d) n d) m =
      resolve (regState (.Active tbl) n d) m) ∧
    (∀ t1, register (.Active tbl) n d = .ok t1 → register t1 n d = .ok t1) := by
  have hstate : regState (regState (.Active tbl) n d) n d = regState (.Active tbl) n d := by
    simp only [regState_active]
    rw [regTable_idem]
  refine ⟨hstate, fun m => by rw [hstate], ?_⟩
  intro t1 h
  cases hl : lookupName tbl n with
  | none =>
    simp [register, hl] at h
    subst h
    simp [register, lookupName_append_none hl, lookupName]
  | some e =>
    by_cases he : e = d
    · subst he
      simp [register, hl] at h
      subst h
      simp [register, hl]
    · simp [register, hl, he] at h

/-- Claim C4 witness: the amended theorem at a concrete input — after a
successful register of ("x", float16) into an empty Active table, the
second identical register returns success with the state unchanged. -/
theorem register_idempotent_witness :
    register (.Active [("x", float16Descriptor)]) "x" float16Descriptor =
      .ok (.Active [("x", float16Descriptor)]) :=
  (register_idempotent [] "x" float16Descriptor (by decide) (by decide)).2.2
    (.Active [("x", float16Descriptor)]) (by decide)

/-- Claim C5: once a name is bound to a descriptor in an Active TRT, every
subsequent sequence of register, resolve and seedDefaults calls leaves that
binding intact: resolve of the name on the final state still returns it. -/
theorem resolve_stable_after_ops (p : HostPlatform) (ops : List TRTOp)
    (tbl : List (String × TypeDescriptor)) (n : String) (d : TypeDescriptor)
    (h : lookupName tbl n = some d) :
    resolve (runSeq p (.Active tbl) ops).2 n = .ok (some d) := by
  induction ops generalizing tbl with
  | nil => simp [runSeq, resolve, h]
  | cons op ops ih =>
    obtain ⟨tbl1, h1, h2⟩ := runOp_preserves_binding p h op
    have hstep : (runSeq p (.Active tbl) (op :: ops)).2 =
        (runSeq p (runOp p (.Active tbl) op).2 ops).2 := rfl
    rw [hstep, h1]
    exact ih tbl1 h2

/-- Claim C5 witness: a binding of "a" survives a concrete sequence of a
conflicting register, a seedDefaults call, a resolve and a fresh register. -/
theorem resolve_stable_after_ops_witness :
    resolve (runSeq noNativeHalf (.Active [("a", float16Descriptor)])
      [.reg "a" bfloat16Descriptor, .seed, .res "b", .reg "b" bfloat16Descriptor]).2 "a" =
      .ok (some float16Descriptor) :=
  resolve_stable_after_ops noNativeHalf
    [.reg "a" bfloat16Descriptor, .seed, .res "b", .reg "b" bfloat16Descriptor]
    [("a", float16Descriptor)] "a" float16Descriptor (by decide)

/-- Claim C8: registering two distinct names in either order yields the
same resolve results for both names. -/
theorem register_distinct_commutes (tbl : List (String × TypeDescriptor))
    (a b : String) (da db : TypeDescriptor) (h : a ≠ b) :
    resolve (regState (regState (.Active tbl) a da) b db) a =
      resolve (regState (regState (.Active tbl) b db) a da) a ∧
    resolve (regState (regState (.Active tbl) a da) b db) b =
      resolve (regState (regState (.Active tbl) b db) a da) b := by
  have hba : b ≠ a := fun hh => h hh.symm
  constructor
  · simp only [regState_active]
    simp [resolve, lookupName_regTable_ne hba, lookupName_regTable_self]
  · simp only [regState_active]
    simp [resolve, lookupName_regTable_ne h, lookupName_regTable_self]

/-- Claim C8 witness: the two registration orders of ("a", float16) and
("b", bfloat16) into an empty Active table agree on both resolves. -/
theorem register_distinct_commutes_witness :
    (resolve (regState (regState (.Active ([] : List (String × TypeDescriptor)))
        "a" float16Descriptor) "b" bfloat16Descriptor) "a" =
      resolve (regState (regState (.Active []) "b" bfloat16Descriptor)
        "a" float16Descriptor) "a") ∧
    (resolve (regState (regState (.Active ([] : List (String × TypeDescriptor)))
        "a" float16Descriptor) "b" bfloat16Descriptor) "b" =
      resolve (regState (regState (.Active []) "b" bfloat16Descriptor)
        "a" float16Descriptor) "b") :=
  register_distinct_commutes [] "a" "b" float16Descriptor bfloat16Descriptor (by decide)

/-- Claim C9: running any call sequence from a fresh TRT is deterministic
and independent of the host platform's native half-float support: two runs
on any two platforms produce identical results for every call, identical
failures included, and an identical final state. -/
theorem trt_runs_deterministic (p q : HostPlatform) (ops : List TRTOp) :
    runFresh p ops = runFresh q ops :=
  runSeq_platform p q ops .Uninitialized

/-- Claim C10: whenever the body of half.h is processed (its include guard
name not yet defined), both typedef lines are emitted, no matter which
names — in particular HAS_FLOAT16 and HAS_BFLOAT16 — the environment
defined beforehand: the inner guards protect only the two defines. -/
theorem half_typedefs_unconditional (defs : List String)
    (h : isDefined defs "MLX_HALF_H" = false) :
    HeaderOutput.typedefFloat16 ∈ processHalfHeader defs ∧
    HeaderOutput.typedefBfloat16 ∈ processHalfHeader defs := by
  cases hc : isDefined defs "__cplusplus" <;>
  cases hf : isDefined defs "HAS_FLOAT16" <;>
  cases hb : isDefined defs "HAS_BFLOAT16" <;>
    simp [processHalfHeader, halfHeader, ppRun, ppStep, PPState.active,
      isDefined, h, hc, hf, hb]

/-- Claim C10 witness: with HAS_FLOAT16, HAS_BFLOAT16 and __cplusplus all
predefined, the header still emits both typedefs. -/
theorem half_typedefs_unconditional_witness :
    HeaderOutput.typedefFloat16 ∈
      processHalfHeader ["HAS_FLOAT16", "HAS_BFLOAT16", "__cplusplus"] ∧
    HeaderOutput.typedefBfloat16 ∈
      processHalfHeader ["HAS_FLOAT16", "HAS_BFLOAT16", "__cplusplus"] :=
  half_typedefs_unconditional ["HAS_FLOAT16", "HAS_BFLOAT16", "__cplusplus"] (by decide)

end MlxFfi
